import Mathlib

/-!
Verification development for the guardian-log DNS anomaly detection service.

The Go sources are shallowly embedded: each Go function that a claim touches
is translated into a pure Lean function over an explicit `Store` (the BoltDB
state) and explicit clock parameters standing for calls to `time.Now()`.
External effects (the AdGuard upstream, the Gemini provider, the WHOIS
network lookup) are passed in as oracle values describing the outcome the
network produced.
-/

namespace GuardianLog

/-! ## RFC3339 formatting of Unix-seconds timestamps

Go's `time.Time.Format(time.RFC3339)` applied to a UTC time. We model
`time.Time` as seconds since the Unix epoch (`Nat`); the zero value `0` of
Go's `time.Time` is approximated by second `0` only where "null" checks
matter, which no claim exercises arithmetically before 1970.
-/

def pad2 (n : Nat) : String :=
  if n < 10 then "0" ++ toString n else toString n

/-- Civil date (year, month, day) from days since 1970-01-01, Gregorian. -/
def civilFromDays (z : Nat) : Nat × Nat × Nat :=
  let z' := z + 719468
  let era := z' / 146097
  let doe := z' % 146097
  let yoe := (doe - doe / 1460 + doe / 36524 - doe / 146096) / 365
  let y := yoe + era * 400
  let doy := doe - (365 * yoe + yoe / 4 - yoe / 100)
  let mp := (5 * doy + 2) / 153
  let d := doy - (153 * mp + 2) / 5 + 1
  let m := if mp < 10 then mp + 3 else mp - 9
  (if m ≤ 2 then y + 1 else y, m, d)

/-- Go `time.Time.Format(time.RFC3339)` for a UTC instant given in Unix seconds. -/
def fmtRFC3339 (t : Nat) : String :=
  let days := t / 86400
  let secs := t % 86400
  let ymd := civilFromDays days
  toString ymd.1 ++ "-" ++ pad2 ymd.2.1 ++ "-" ++ pad2 ymd.2.2 ++ "T" ++
    pad2 (secs / 3600) ++ ":" ++ pad2 (secs % 3600 / 60) ++ ":" ++ pad2 (secs % 60) ++ "Z"

/-! ## Association lists

BoltDB buckets are key-value maps; we model each bucket as an association
list with `putA` implementing `Put` (replace or insert) and `lookupA`
implementing `Get`.
-/

def lookupA {α : Type} : List (String × α) → String → Option α
  | [], _ => none
  | (k', v) :: t, k => if k' = k then some v else lookupA t k

def putA {α : Type} : List (String × α) → String → α → List (String × α)
  | [], k, v => [(k, v)]
  | (k', v') :: t, k, v => if k' = k then (k, v) :: t else (k', v') :: putA t k v

/-- The keys of the association list, used to state uniqueness of anomaly ids. -/
def keysOf {α : Type} (l : List (String × α)) : List String :=
  l.map Prod.fst

/-! ## Data model (internal/storage/models.go)

Go zero values are the empty string for `string` fields, `0` for ints, and
the zero instant for `time.Time` (modelled as second `0`).
-/

/-- Go struct `storage.DNSQuery`. -/
structure DNSQuery where
  clientID : String
  clientName : String
  domain : String
  timestamp : Nat
  queryType : String
  answer : String
  reason : String
deriving DecidableEq

/-- Go `DNSQuery.QueryID`: `ClientID + "|" + Domain + "|" + Timestamp.Format(RFC3339)`. -/
def DNSQuery.queryID (q : DNSQuery) : String :=
  q.clientID ++ "|" ++ q.domain ++ "|" ++ fmtRFC3339 q.timestamp

/-- Go struct `storage.Baseline`. -/
structure Baseline where
  clientID : String
  clientName : String
  domains : List String
  lastUpdated : Nat
deriving DecidableEq

/-- Go struct `storage.Anomaly`. -/
structure Anomaly where
  id : String
  domain : String
  clientID : String
  clientName : String
  queryType : String
  classification : String
  riskScore : Int
  explanation : String
  suggestedAction : String
  detectedAt : Nat
  status : String
deriving DecidableEq

/-- Go struct `storage.WHOISData`. -/
structure WHOISData where
  domain : String
  registrar : String
  country : String
  createdDate : String
  updatedDate : String
  expiryDate : String
  nameServers : List String
  lookedUpAt : Nat
deriving DecidableEq

/-- Go struct `llm.Analysis`. -/
structure Analysis where
  domain : String
  clientID : String
  clientName : String
  classification : String
  explanation : String
  riskScore : Int
  suggestedAction : String
  analyzedAt : Nat
  provider : String
  queryType : String
deriving DecidableEq

/-! ## The Store (src/unnamed/part_007, package storage, BoltStore)

Each BoltDB bucket becomes an association list; `db.Update`/`db.View`
transactions become pure state transitions. Backend IO errors cannot occur
in the pure model, so operations that only fail on IO are total here.
Calls to `time.Now()` inside a store operation become an explicit `now`
argument.
-/

structure Store where
  baselines : List (String × Baseline)
  processedQueries : List (String × Nat)
  whoisCache : List (String × WHOISData)
  anomalies : List (String × Anomaly)
  analyses : List Analysis
deriving DecidableEq

/-- Go `BoltStore.GetClientBaseline`: returns a fresh empty baseline when none is
stored (with `LastUpdated = time.Now()` and zero-valued `ClientName`). -/
def GetClientBaseline (s : Store) (clientID : String) (now : Nat) : Baseline :=
  match lookupA s.baselines clientID with
  | some b => b
  | none => { clientID := clientID, clientName := "", domains := [], lastUpdated := now }

/-- Go `BoltStore.AddDomainToBaseline`: unmarshals the stored baseline (or starts
a fresh one carrying `clientName`), returns unchanged if the domain is already
present, otherwise appends the domain, stamps `LastUpdated = time.Now()` and
writes back. -/
def AddDomainToBaseline (s : Store) (clientID clientName domain : String) (now : Nat) : Store :=
  let baseline : Baseline :=
    match lookupA s.baselines clientID with
    | some b => b
    | none => { clientID := clientID, clientName := clientName, domains := [], lastUpdated := 0 }
  if baseline.domains.contains domain then s
  else
    let updated : Baseline :=
      { baseline with domains := baseline.domains ++ [domain], lastUpdated := now }
    { s with baselines := putA s.baselines clientID updated }

/-- Go `BoltStore.HasSeenQuery`. -/
def HasSeenQuery (s : Store) (queryID : String) : Bool :=
  (lookupA s.processedQueries queryID).isSome

/-- Go `BoltStore.MarkQueryProcessed`: stores the processing timestamp under the
query id. -/
def MarkQueryProcessed (s : Store) (queryID : String) (now : Nat) : Store :=
  { s with processedQueries := putA s.processedQueries queryID now }

/-- Go `BoltStore.HasDomainInBaseline`. -/
def HasDomainInBaseline (s : Store) (clientID domain : String) (now : Nat) : Bool :=
  (GetClientBaseline s clientID now).domains.contains domain

/-- Go `BoltStore.CacheWHOIS`. -/
def CacheWHOIS (s : Store) (domain : String) (data : WHOISData) : Store :=
  { s with whoisCache := putA s.whoisCache domain data }

/-- Go `BoltStore.GetCachedWHOIS`. -/
def GetCachedWHOIS (s : Store) (domain : String) : Option WHOISData :=
  lookupA s.whoisCache domain

/-- Go `BoltStore.SaveAnalysis`: appends under a fresh `RFC3339Nano` timestamp
key; we keep the chronological list. -/
def SaveAnalysis (s : Store) (a : Analysis) : Store :=
  { s with analyses := s.analyses ++ [a] }

/-- The anomaly id `SaveAnomaly` generates when `ID` is unset:
`ClientID|Domain|DetectedAt.Format(RFC3339)`. -/
def anomalyIdFor (a : Anomaly) : String :=
  a.clientID ++ "|" ++ a.domain ++ "|" ++ fmtRFC3339 a.detectedAt

/-- Go `BoltStore.SaveAnomaly`: generates the id if unset, defaults the status to
`"pending"` if unset, then `Put`s (upsert by id). -/
def SaveAnomaly (s : Store) (a : Anomaly) : Store :=
  let a1 := if a.id = "" then { a with id := anomalyIdFor a } else a
  let a2 := if a1.status = "" then { a1 with status := "pending" } else a1
  { s with anomalies := putA s.anomalies a2.id a2 }

/-- Go `BoltStore.GetAnomalyByID`: `none` models the "anomaly not found" error. -/
def GetAnomalyByID (s : Store) (id : String) : Option Anomaly :=
  lookupA s.anomalies id

/-- Go `BoltStore.UpdateAnomalyStatus`: `none` models the "anomaly not found"
error; otherwise rewrites the stored record with the new status. -/
def UpdateAnomalyStatus (s : Store) (id status : String) : Option Store :=
  match lookupA s.anomalies id with
  | none => none
  | some a => some { s with anomalies := putA s.anomalies id { a with status := status } }

/-! ## Detector (internal/analyzer/baseline.go) and Poller (internal/ingestor/poller.go)

`BaselineAnalyzer.ProcessQuery` decides first-seen; the poller's per-record
handling in `poll` submits flagged records to the LLM analyzer
(`AnalyzeAsync`) and then auto-extends the baseline (`ApproveAnomaly`, which
is `AddDomainToBaseline`). We record the submissions the poller makes.
-/

/-- Go `BaselineAnalyzer.ProcessQuery`: skip if the fingerprint was seen, mark it
processed, then flag iff the domain is not in the client's baseline. -/
def ProcessQuery (s : Store) (q : DNSQuery) (now : Nat) : Bool × Store :=
  if HasSeenQuery s q.queryID then (false, s)
  else
    let s1 := MarkQueryProcessed s q.queryID now
    if HasDomainInBaseline s1 q.clientID q.domain now then (false, s1)
    else (true, s1)

/-- One iteration of the per-record loop in `Poller.poll`: drop empty domains,
run `ProcessQuery`, and on an anomaly submit the record for LLM analysis and
add the domain to the baseline. Returns the new store and the submission made
(if any). -/
def pollStep (s : Store) (q : DNSQuery) (now : Nat) : Store × Option DNSQuery :=
  if q.domain = "" then (s, none)
  else
    let r := ProcessQuery s q now
    if r.1 then
      (AddDomainToBaseline r.2 q.clientID q.clientName q.domain now, some q)
    else (r.2, none)

/-- The per-record loop of `Poller.poll` over a fetched page, collecting the
records submitted to the LLM analyzer in order. -/
def pollQueries (s : Store) (qs : List DNSQuery) (now : Nat) : Store × List DNSQuery :=
  match qs with
  | [] => (s, [])
  | q :: t =>
    let step := pollStep s q now
    let rest := pollQueries step.1 t now
    (rest.1, step.2.toList ++ rest.2)

/-- Number of submissions the poller made for a given (client, domain) pair. -/
def pairCount (subs : List DNSQuery) (c d : String) : Nat :=
  (subs.filter (fun q => q.clientID = c ∧ q.domain = d)).length

/-! ## Classifier response validation (internal/llm/types.go, src/unnamed/part_004)

`BatchAnalysisResponse` is the per-item shape of the provider's batch JSON
answer; `Validate` is its validity check.
-/

/-- Go struct `llm.BatchAnalysisResponse`. -/
structure BatchAnalysisResponse where
  domain : String
  classification : String
  explanation : String
  riskScore : Int
  suggestedAction : String
deriving DecidableEq

/-- Go `BatchAnalysisResponse.Validate` as a boolean: non-empty domain, known
classification, non-empty explanation, risk score in `[1,10]`, known action. -/
def BatchAnalysisResponse.validate (r : BatchAnalysisResponse) : Bool :=
  r.domain ≠ "" &&
  (r.classification = "Safe" || r.classification = "Suspicious" ||
    r.classification = "Malicious") &&
  r.explanation ≠ "" &&
  (1 ≤ r.riskScore && r.riskScore ≤ 10) &&
  (r.suggestedAction = "Allow" || r.suggestedAction = "Investigate" ||
    r.suggestedAction = "Block")

/-! ## Gemini batch call (src/unnamed/part_005, `Provider.AnalyzeBatch`)

The network and the retry-with-backoff loop are summarized by a
`BatchOutcome` oracle: either the call failed after retries with an error
(`ErrRateLimited`, `ErrTimeout`, or a non-retryable error), the response
text was not valid JSON, or it parsed into a list of
`BatchAnalysisResponse`. The pure tail of `AnalyzeBatch` — emptiness check,
size check, per-item validation, per-position domain equality, and Analysis
construction — is embedded exactly. Each loop iteration reads
`time.Now()` for `AnalyzedAt`; `nows i` is the reading of iteration `i`.
-/

inductive LLMError where
  /-- Error `llm.ErrRateLimited`. -/
  | rateLimited : LLMError
  /-- Error `llm.ErrTimeout`. -/
  | timeout : LLMError
  /-- Error `llm.ErrInvalidJSON`. -/
  | invalidJSON : LLMError
  /-- any other provider error, with its message. -/
  | other : String → LLMError
deriving DecidableEq

inductive BatchOutcome where
  /-- transport/provider failure surviving the retry loop. -/
  | netError : LLMError → BatchOutcome
  /-- response text that fails to parse as a JSON array. -/
  | badJSON : BatchOutcome
  /-- parsed JSON array of per-item responses. -/
  | response : List BatchAnalysisResponse → BatchOutcome
deriving DecidableEq

/-- The `Analysis` that `AnalyzeBatch` builds at position `i`. -/
def mkAnalysis (q : DNSQuery) (r : BatchAnalysisResponse) (now : Nat) : Analysis :=
  { domain := q.domain, clientID := q.clientID, clientName := q.clientName,
    classification := r.classification, explanation := r.explanation,
    riskScore := r.riskScore, suggestedAction := r.suggestedAction,
    analyzedAt := now, provider := "gemini", queryType := q.queryType }

/-- The conversion loop at the end of `AnalyzeBatch`: validate each response,
check per-position domain equality, and build the `Analysis` list; any
failure rejects the whole batch. -/
def buildAnalyses : List DNSQuery → List BatchAnalysisResponse → (Nat → Nat) → Nat →
    Except LLMError (List Analysis)
  | [], [], _, _ => .ok []
  | q :: qt, r :: rt, nows, i =>
    if r.validate = false then .error (.other "batch response validation failed")
    else if r.domain ≠ q.domain then .error (.other "domain mismatch")
    else
      match buildAnalyses qt rt nows (i + 1) with
      | .error e => .error e
      | .ok rest => .ok (mkAnalysis q r (nows i) :: rest)
  | _, _, _, _ => .error (.other "length mismatch")

/-- Go `Provider.AnalyzeBatch` (gemini): rejects an empty batch, propagates
network errors and JSON parse failures, rejects a wrong-sized response, then
runs the conversion loop. -/
def AnalyzeBatch (qs : List DNSQuery) (outcome : BatchOutcome) (nows : Nat → Nat) :
    Except LLMError (List Analysis) :=
  if qs.length = 0 then .error (.other "no queries to analyze")
  else
    match outcome with
    | .netError e => .error e
    | .badJSON => .error .invalidJSON
    | .response rs =>
      if rs.length ≠ qs.length then .error (.other "batch response count mismatch")
      else buildAnalyses qs rs nows 0

/-! ## Dispatcher batch persistence (src/unnamed/part_004, `Analyzer.processBatchWithAPI`)

The Go function receives the provider result (`[]*llm.Analysis, error`),
counts, persists analyses and non-Safe anomalies, or — on `ErrRateLimited` —
bumps the throttled counter and spawns a 30-second-delayed `AnalyzeAsync`
requeue goroutine per element. We return the updated counters, the updated
store, and the list of requeue actions with their delay (seconds).
-/

structure AnalyzerStats where
  totalAnalyses : Nat
  successfulAnalyses : Nat
  failedAnalyses : Nat
  rateLimitedCount : Nat
  batchCount : Nat
deriving DecidableEq

structure Requeue where
  delaySeconds : Nat
  query : DNSQuery
deriving DecidableEq

/-- The save step of the success loop body: `SaveAnalysis`, then
`SaveAnomaly` iff the classification is Suspicious or Malicious, with the
anomaly built field-by-field from the analysis (`ID` and `Status` left at
their zero values). -/
def saveAnalysisResult (s : Store) (a : Analysis) : Store :=
  let s1 := SaveAnalysis s a
  if a.classification = "Suspicious" ∨ a.classification = "Malicious" then
    SaveAnomaly s1
      { id := "", domain := a.domain, clientID := a.clientID, clientName := a.clientName,
        queryType := a.queryType, classification := a.classification,
        riskScore := a.riskScore, explanation := a.explanation,
        suggestedAction := a.suggestedAction, detectedAt := a.analyzedAt, status := "" }
  else s1

/-- The success loop of `processBatchWithAPI`: nil entries count as failed,
others are saved and count as succeeded. Returns (store, succeeded, failed). -/
def saveLoop : Store → List (Option Analysis) → Store × Nat × Nat
  | s, [] => (s, 0, 0)
  | s, none :: t =>
    let r := saveLoop s t
    (r.1, r.2.1, r.2.2 + 1)
  | s, some a :: t =>
    let r := saveLoop (saveAnalysisResult s a) t
    (r.1, r.2.1 + 1, r.2.2)

/-- Go `Analyzer.processBatchWithAPI`: bump `totalAnalyses` by the batch size;
on `ErrRateLimited` bump the throttled counter, count all elements failed, and
requeue every element with a fixed 30s delay; on any other error count all
failed; on success run the save loop and add its counts. -/
def processBatchWithAPI (stats : AnalyzerStats) (s : Store) (qs : List DNSQuery)
    (result : Except LLMError (List (Option Analysis))) :
    AnalyzerStats × Store × List Requeue :=
  let stats1 := { stats with totalAnalyses := stats.totalAnalyses + qs.length }
  match result with
  | .error e =>
    if e = .rateLimited then
      ({ stats1 with rateLimitedCount := stats1.rateLimitedCount + 1,
                     failedAnalyses := stats1.failedAnalyses + qs.length },
       s, qs.map (fun q => { delaySeconds := 30, query := q }))
    else
      ({ stats1 with failedAnalyses := stats1.failedAnalyses + qs.length }, s, [])
  | .ok analyses =>
    let r := saveLoop s analyses
    ({ stats1 with successfulAnalyses := stats1.successfulAnalyses + r.2.1,
                   failedAnalyses := stats1.failedAnalyses + r.2.2 },
     r.1, [])

/-! ## WHOIS enrichment (internal/enrichment/whois.go)

The external `whois.Whois` call and `whoisparser.Parse` are summarized by a
`WhoisOutcome` oracle. `Lookup` returns the record, the new service state,
and whether an external network lookup was performed (the paths that bump
`lookupCount`).
-/

/-- In-memory state of `WHOISService` together with its store view. -/
structure WhoisState where
  cache : List (String × WHOISData)
  lastLookup : Nat
  lookupCount : Nat
  cacheHits : Nat
  cacheMisses : Nat
deriving DecidableEq

/-- Twenty-four hours in seconds (Go `WhoisCacheTTL`). -/
def WhoisCacheTTL : Nat := 86400

/-- Go `strings.ToLower(strings.TrimSuffix(domain, "."))`. -/
def normalizeDomain (d : String) : String :=
  (if d.endsWith "." then d.dropRight 1 else d).toLower

/-- The minimal record returned on lookup or parse failure. -/
def minimalWhois (domain : String) (now : Nat) : WHOISData :=
  { domain := domain, registrar := "", country := "", createdDate := "",
    updatedDate := "", expiryDate := "", nameServers := [], lookedUpAt := now }

/-- Outcome of the external lookup+parse for one call. -/
inductive WhoisOutcome where
  /-- The external `whois.Whois` call returned an error. -/
  | lookupFailed : WhoisOutcome
  /-- The parser `whoisparser.Parse` returned an error. -/
  | parseFailed : WhoisOutcome
  /-- parsed fields: registrar, country, created, updated, expiry, name servers. -/
  | parsed : String → String → String → String → String → List String → WhoisOutcome
deriving DecidableEq

/-- Go `WHOISService.getFromCache`: a cached record is returned only while
`now - looked_up_at ≤ 24h` (Go: expired iff `time.Since > TTL`). -/
def getFromCache (st : WhoisState) (domain : String) (now : Nat) : Option WHOISData :=
  match lookupA st.cache domain with
  | none => none
  | some c => if now - c.lookedUpAt > WhoisCacheTTL then none else some c

/-- Go `WHOISService.Lookup`: normalize, serve fresh cache hits without network
IO, otherwise pace, perform the external lookup (counted), and on success
cache the parsed record; on lookup or parse failure return the minimal record
without caching. The `Bool` is true iff an external lookup was performed. -/
def Lookup (st : WhoisState) (domain0 : String) (now : Nat) (oracle : WhoisOutcome) :
    WHOISData × WhoisState × Bool :=
  let domain := normalizeDomain domain0
  match getFromCache st domain now with
  | some c => (c, { st with cacheHits := st.cacheHits + 1 }, false)
  | none =>
    let st1 := { st with cacheMisses := st.cacheMisses + 1,
                         lastLookup := now, lookupCount := st.lookupCount + 1 }
    match oracle with
    | .lookupFailed => (minimalWhois domain now, st1, true)
    | .parseFailed => (minimalWhois domain now, st1, true)
    | .parsed reg ctry cd ud ed ns =>
      let data : WHOISData :=
        { domain := domain, registrar := reg, country := ctry, createdDate := cd,
          updatedDate := ud, expiryDate := ed, nameServers := ns, lookedUpAt := now }
      (data, { st1 with cache := putA st1.cache domain data }, true)

/-! ## AdGuard query-log conversion (internal/ingestor/adguard.go)

`convertToQuery` maps one `QueryLogEntry` to a `DNSQuery`. The RFC3339
timestamp parse is summarized: `time : Option Nat` is `some` of the parsed
instant or `none` for a parse failure (in which case the entry is skipped).
-/

structure Question where
  qclass : String
  name : String
  unicodeName : String
  qtype : String
deriving DecidableEq

structure AGAnswer where
  ttl : Nat
  atype : String
  value : String
deriving DecidableEq

structure QueryLogEntry where
  answer : List AGAnswer
  client : String
  clientID : String
  question : Question
  originalQuestion : Question
  reason : String
  time : Option Nat
deriving DecidableEq

/-- Go `AdGuardClient.convertToQuery`. -/
def convertToQuery (e : QueryLogEntry) : Option DNSQuery :=
  match e.time with
  | none => none
  | some ts =>
    let answerValue := match e.answer with
      | [] => ""
      | a :: _ => a.value
    let clientID := if e.clientID = "" then e.client else e.clientID
    let clientName := if e.client = "" then e.clientID else e.client
    let domain0 := e.question.name
    let domain1 :=
      if domain0 = "" ∧ e.originalQuestion.name ≠ "" then e.originalQuestion.name else domain0
    let domain :=
      if domain1 = "" ∧ e.question.unicodeName ≠ "" then e.question.unicodeName else domain1
    some { clientID := clientID, clientName := clientName, domain := domain,
           timestamp := ts, queryType := e.question.qtype, answer := answerValue,
           reason := e.reason }

/-! ## Control surface (internal/api/handlers.go)

`handleAnomalyAction` for `/api/anomalies/{id}/{action}`. The AdGuard
`BlockDomain` HTTP call is summarized by `upstreamOk`. The result is the HTTP
status code and the resulting store.
-/

/-- Go `Server.approveAnomaly`: baseline add, then status update. Returns the
success flag and the store as left by the operation. -/
def approveAnomaly (s : Store) (a : Anomaly) (now : Nat) : Bool × Store :=
  let s1 := AddDomainToBaseline s a.clientID a.clientName a.domain now
  match UpdateAnomalyStatus s1 a.id "approved" with
  | none => (false, s1)
  | some s2 => (true, s2)

/-- Go `Server.blockAnomaly`: AdGuard block rule first; on upstream failure the
status update is never reached. -/
def blockAnomaly (s : Store) (a : Anomaly) (upstreamOk : Bool) : Bool × Store :=
  if !upstreamOk then (false, s)
  else
    match UpdateAnomalyStatus s a.id "blocked" with
    | none => (false, s)
    | some s2 => (true, s2)

/-- Go `Server.handleAnomalyAction` after routing: invalid action → 400; unknown
id → 404; action failure → 500; success → 200. -/
def handleAnomalyAction (s : Store) (id action : String) (upstreamOk : Bool) (now : Nat) :
    Nat × Store :=
  if action ≠ "approve" ∧ action ≠ "block" then (400, s)
  else
    match GetAnomalyByID s id with
    | none => (404, s)
    | some a =>
      let r := if action = "approve" then approveAnomaly s a now
               else blockAnomaly s a upstreamOk
      if r.1 then (200, r.2) else (500, r.2)

/-! ## Auxiliary definitions used by the statements -/

/-- The Verdict invariants of spec §4.4 stated of a produced `Analysis`. -/
def validVerdict (a : Analysis) : Bool :=
  (a.classification = "Safe" || a.classification = "Suspicious" ||
    a.classification = "Malicious") &&
  a.explanation ≠ "" &&
  (1 ≤ a.riskScore && a.riskScore ≤ 10) &&
  (a.suggestedAction = "Allow" || a.suggestedAction = "Investigate" ||
    a.suggestedAction = "Block")

/-- The anomaly id that persisting `a` through `saveAnalysisResult` produces. -/
def anomalyIdOfAnalysis (a : Analysis) : String :=
  a.clientID ++ "|" ++ a.domain ++ "|" ++ fmtRFC3339 a.analyzedAt

/-- The analyses a provider result carries (empty on error, nil entries dropped). -/
def okList : Except LLMError (List (Option Analysis)) → List Analysis
  | .ok l => l.filterMap id
  | .error _ => []

def isOkE : Except LLMError (List (Option Analysis)) → Bool
  | .ok _ => true
  | .error _ => false

/-- Spec-side mapping (§6): `client_id = client_id || client`. -/
def specClientID (e : QueryLogEntry) : String :=
  if e.clientID ≠ "" then e.clientID else e.client

/-- Spec-side mapping (§6): `client_display_name = client || client_id`. -/
def specClientName (e : QueryLogEntry) : String :=
  if e.client ≠ "" then e.client else e.clientID

/-- Spec-side mapping (§6), without the lower-casing/dot-stripping the spec
also asserts: `domain = question.name || original_question.name ||
question.unicode_name`. -/
def specDomain (e : QueryLogEntry) : String :=
  if e.question.name ≠ "" then e.question.name
  else if e.originalQuestion.name ≠ "" then e.originalQuestion.name
  else if e.question.unicodeName ≠ "" then e.question.unicodeName
  else ""

/-! ## Concrete scenario inputs (spec §8, S1 and variants) -/

def emptyStore : Store :=
  { baselines := [], processedQueries := [], whoisCache := [], anomalies := [], analyses := [] }

def zeroStats : AnalyzerStats :=
  { totalAnalyses := 0, successfulAnalyses := 0, failedAnalyses := 0,
    rateLimitedCount := 0, batchCount := 0 }

/-- The S1 record `(iot-plug, telemetry.example.org, A, 2025-01-01T00:00:00Z)`. -/
def qS1 : DNSQuery :=
  { clientID := "iot-plug", clientName := "iot-plug", domain := "telemetry.example.org",
    timestamp := 1735689600, queryType := "A", answer := "", reason := "" }

/-- The S1 classifier verdict `(Malicious, "C2 beaconing pattern", 9, Block)`. -/
def rMal : BatchAnalysisResponse :=
  { domain := "telemetry.example.org", classification := "Malicious",
    explanation := "C2 beaconing pattern", riskScore := 9, suggestedAction := "Block" }

/-- Running the S1 batch (two identical submissions) through the Gemini batch
call and the dispatcher persistence, with the analysis-time clock reading
2025-01-02T00:00:00Z (one day after the record's timestamp). -/
def c3Run : AnalyzerStats × Store × List Requeue :=
  processBatchWithAPI zeroStats emptyStore [qS1, qS1]
    ((AnalyzeBatch [qS1, qS1] (.response [rMal, rMal]) (fun _ => 1735776000)).map
      (List.map some))

/-- The analyses the Gemini batch call produces for the duplicated S1 batch
with analysis-time clock 1735776000. -/
def c3Analyses : List Analysis :=
  [mkAnalysis qS1 rMal 1735776000, mkAnalysis qS1 rMal 1735776000]

/-- A record for the pair (`c`, `d`) used against a baseline already holding it. -/
def c1q : DNSQuery :=
  { clientID := "c", clientName := "n", domain := "d", timestamp := 3,
    queryType := "A", answer := "", reason := "" }

/-- A baseline for client `c` already holding domain `d`, stamped at 5. -/
def c7Baseline : Baseline :=
  { clientID := "c", clientName := "n", domains := ["d"], lastUpdated := 5 }

/-- A store holding only `c7Baseline`. -/
def c7Store : Store :=
  { baselines := [("c", c7Baseline)],
    processedQueries := [], whoisCache := [], anomalies := [], analyses := [] }

/-- A query-log entry whose `question.name` carries upper-case letters and a
trailing dot. -/
def c8Entry : QueryLogEntry :=
  { answer := [], client := "192.168.1.5", clientID := "",
    question := { qclass := "IN", name := "Example.COM.", unicodeName := "", qtype := "A" },
    originalQuestion := { qclass := "", name := "", unicodeName := "", qtype := "" },
    reason := "NotFilteredNotFound", time := some 1735689600 }

def w0 : WhoisState :=
  { cache := [], lastLookup := 0, lookupCount := 0, cacheHits := 0, cacheMisses := 0 }

/-- The S2 Safe verdict `(Safe, "Reputable provider", 2, Allow)`, analyzed at
second 1735689700. -/
def aSafe : Analysis :=
  { domain := "telemetry.example.org", clientID := "iot-plug", clientName := "iot-plug",
    classification := "Safe", explanation := "Reputable provider", riskScore := 2,
    suggestedAction := "Allow", analyzedAt := 1735689700, provider := "gemini",
    queryType := "A" }

def c2SafeRes : Except LLMError (List (Option Analysis)) := .ok [some aSafe]

/-- A pending anomaly, for exercising the block flow (spec S5). -/
def c6Anom : Anomaly :=
  { id := "iot-plug|telemetry.example.org|2025-01-01T00:00:00Z",
    domain := "telemetry.example.org", clientID := "iot-plug", clientName := "iot-plug",
    queryType := "A", classification := "Malicious", riskScore := 9,
    explanation := "C2 beaconing pattern", suggestedAction := "Block",
    detectedAt := 1735689600, status := "pending" }

def c6Store : Store :=
  { baselines := [], processedQueries := [], whoisCache := [],
    anomalies := [(c6Anom.id, c6Anom)], analyses := [] }

/-- A store holding an already-approved anomaly for the S1 pair, detected at
second 5. -/
def c10Anom : Anomaly :=
  { id := "", domain := "telemetry.example.org", clientID := "iot-plug",
    clientName := "iot-plug", queryType := "A", classification := "Malicious",
    riskScore := 9, explanation := "C2 beaconing pattern", suggestedAction := "Block",
    detectedAt := 5, status := "" }

def c10Store : Store :=
  { baselines := [], processedQueries := [], whoisCache := [],
    anomalies := [(anomalyIdFor c10Anom,
      { c10Anom with id := anomalyIdFor c10Anom, status := "approved" })],
    analyses := [] }

/-!
# Theorems

Helper lemmas about the association-list store, then one theorem per claim
with concrete witnesses and counterexamples.
-/

theorem lookupA_putA_self {α : Type} (l : List (String × α)) (k : String) (v : α) :
    lookupA (putA l k v) k = some v := by
  induction l with
  | nil => simp [putA, lookupA]
  | cons h t ih =>
    by_cases hk : h.1 = k
    · simp [putA, hk, lookupA]
    · simp [putA, hk, lookupA, ih]

theorem lookupA_putA_ne {α : Type} (l : List (String × α)) (k k' : String) (v : α)
    (h : k ≠ k') : lookupA (putA l k v) k' = lookupA l k' := by
  induction l with
  | nil => simp [putA, lookupA, h]
  | cons hd t ih =>
    by_cases hk : hd.1 = k
    · simp [putA, hk, lookupA, h]
    · simp [putA, hk, lookupA, ih]

theorem mem_putA {α : Type} (l : List (String × α)) (k : String) (v : α) (kv : String × α)
    (h : kv ∈ putA l k v) : kv ∈ l ∨ kv = (k, v) := by
  induction l with
  | nil => simp [putA] at h; right; exact h
  | cons hd t ih =>
    by_cases hk : hd.1 = k
    · simp [putA, hk] at h
      rcases h with h | h
      · right; exact h
      · left; exact List.mem_cons_of_mem _ h
    · simp [putA, hk] at h
      rcases h with h | h
      · left; exact h ▸ List.mem_cons_self _ _
      · rcases ih h with h' | h'
        · left; exact List.mem_cons_of_mem _ h'
        · right; exact h'

theorem keysOf_putA {α : Type} (l : List (String × α)) (k : String) (v : α) :
    keysOf (putA l k v) = if k ∈ keysOf l then keysOf l else keysOf l ++ [k] := by
  induction l with
  | nil => simp [putA, keysOf]
  | cons hd t ih =>
    by_cases h1 : hd.1 = k
    · simp [putA, h1, keysOf]
    · have hne : ¬k = hd.1 := fun h => h1 h.symm
      simp only [putA, h1, if_false, keysOf, List.map_cons, List.mem_cons, hne, false_or]
      rw [show List.map Prod.fst (putA t k v) = keysOf (putA t k v) from rfl, ih]
      by_cases h2 : k ∈ keysOf t
      · simp only [keysOf] at h2
        simp [keysOf, h2]
      · simp only [keysOf] at h2
        simp [keysOf, h2]

theorem nodup_keysOf_putA {α : Type} (l : List (String × α)) (k : String) (v : α)
    (h : (keysOf l).Nodup) : (keysOf (putA l k v)).Nodup := by
  rw [keysOf_putA]
  by_cases hk : k ∈ keysOf l
  · simpa [hk] using h
  · simp only [hk, if_false]
    refine List.Nodup.append h (List.nodup_singleton k) ?_
    intro a ha hb
    simp only [List.mem_singleton] at hb
    subst hb
    exact hk ha

/-! ### Baseline lemmas -/

theorem hasDomain_iff (s : Store) (c d : String) (now : Nat) :
    HasDomainInBaseline s c d now = true ↔
      ∃ b, lookupA s.baselines c = some b ∧ d ∈ b.domains := by
  simp only [HasDomainInBaseline, GetClientBaseline]
  cases hl : lookupA s.baselines c <;> simp

theorem baselines_addDomainToBaseline (s : Store) (c n d : String) (now : Nat) (c' : String) :
    lookupA (AddDomainToBaseline s c n d now).baselines c' =
      if c = c' then
        match lookupA s.baselines c with
        | none => some { clientID := c, clientName := n, domains := [d], lastUpdated := now }
        | some b =>
          some (if d ∈ b.domains then b
                else { b with domains := b.domains ++ [d], lastUpdated := now })
      else lookupA s.baselines c' := by
  simp only [AddDomainToBaseline]
  cases hl : lookupA s.baselines c with
  | none =>
    by_cases hcc : c = c'
    · subst hcc
      simp [lookupA_putA_self]
    · simp [lookupA_putA_ne _ _ _ _ hcc, hcc]
  | some b =>
    by_cases hd : d ∈ b.domains
    · by_cases hcc : c = c'
      · subst hcc
        simp [hd, hl]
      · simp [hd, hcc]
    · by_cases hcc : c = c'
      · subst hcc
        simp [hd, lookupA_putA_self]
      · simp [hd, hcc, lookupA_putA_ne _ _ _ _ hcc]

theorem addDomainToBaseline_of_contains (s : Store) (c n d : String) (now : Nat)
    (h : HasDomainInBaseline s c d now = true) :
    AddDomainToBaseline s c n d now = s := by
  rw [hasDomain_iff] at h
  obtain ⟨b, hl, hd⟩ := h
  simp [AddDomainToBaseline, hl, hd]

theorem hasDomain_addDomainToBaseline_self (s : Store) (c n d : String) (now : Nat) :
    HasDomainInBaseline (AddDomainToBaseline s c n d now) c d now = true := by
  rw [hasDomain_iff, baselines_addDomainToBaseline, if_pos rfl]
  cases hl : lookupA s.baselines c with
  | none =>
    simp only [hl]
    exact ⟨_, rfl, by simp⟩
  | some b =>
    simp only [hl]
    by_cases hd : d ∈ b.domains
    · exact ⟨b, by rw [if_pos hd], hd⟩
    · exact ⟨_, by rw [if_neg hd], by simp⟩

theorem hasDomain_addDomainToBaseline_mono (s : Store) (c n d c' d' : String) (now : Nat)
    (h : HasDomainInBaseline s c' d' now = true) :
    HasDomainInBaseline (AddDomainToBaseline s c n d now) c' d' now = true := by
  rw [hasDomain_iff] at h ⊢
  obtain ⟨b', hl', hd'⟩ := h
  rw [baselines_addDomainToBaseline]
  by_cases hcc : c = c'
  · subst hcc
    rw [if_pos rfl]
    simp only [hl']
    by_cases hd : d ∈ b'.domains
    · exact ⟨b', by rw [if_pos hd], hd'⟩
    · refine ⟨_, by rw [if_neg hd], ?_⟩
      simp [hd']
  · simp only [hcc, if_false]
    exact ⟨b', hl', hd'⟩

theorem hasDomain_markQueryProcessed (s : Store) (qid : String) (t : Nat) (c d : String)
    (now : Nat) :
    HasDomainInBaseline (MarkQueryProcessed s qid t) c d now = HasDomainInBaseline s c d now :=
  rfl

/-! ### Claim C7 -/

/-- C7 (amended): `baseline_add` is idempotent — when the domain is already
present the stored baseline (including `last_updated`) is wholly unchanged;
when the client has no baseline one is created holding exactly the new
domain with `last_updated = now`; when the domain is new it is appended
(preserving freedom from duplicates) and `last_updated` is set to `now`;
after the call the domain is in the baseline. -/
theorem baseline_add_spec (s : Store) (c n d : String) (now : Nat) :
    (HasDomainInBaseline s c d now = true → AddDomainToBaseline s c n d now = s)
    ∧ (lookupA s.baselines c = none →
        lookupA (AddDomainToBaseline s c n d now).baselines c =
          some { clientID := c, clientName := n, domains := [d], lastUpdated := now })
    ∧ (∀ b : Baseline, lookupA s.baselines c = some b → d ∉ b.domains →
        lookupA (AddDomainToBaseline s c n d now).baselines c =
          some { b with domains := b.domains ++ [d], lastUpdated := now })
    ∧ (∀ b b' : Baseline, lookupA s.baselines c = some b → b.domains.Nodup →
        lookupA (AddDomainToBaseline s c n d now).baselines c = some b' → b'.domains.Nodup)
    ∧ HasDomainInBaseline (AddDomainToBaseline s c n d now) c d now = true := by
  refine ⟨addDomainToBaseline_of_contains s c n d now, ?_, ?_, ?_,
    hasDomain_addDomainToBaseline_self s c n d now⟩
  · intro hl
    rw [baselines_addDomainToBaseline, if_pos rfl]
    simp only [hl]
  · intro b hl hd
    rw [baselines_addDomainToBaseline, if_pos rfl]
    simp only [hl]
    rw [if_neg hd]
  · intro b b' hl hnd hl'
    rw [baselines_addDomainToBaseline, if_pos rfl] at hl'
    simp only [hl] at hl'
    by_cases hd : d ∈ b.domains
    · rw [if_pos hd, Option.some_inj] at hl'
      subst hl'
      exact hnd
    · rw [if_neg hd, Option.some_inj] at hl'
      subst hl'
      simp [List.nodup_append, hnd, hd]

/-- C7 counterexample: with client `c` already holding domain `d` (stamped 5),
the call `AddDomainToBaseline` at `now = 10` leaves the store — including
`last_updated` — unchanged, so the claim that every `baseline_add` updates
`last_updated` fails. -/
theorem baseline_add_no_timestamp_update :
    AddDomainToBaseline c7Store "c" "n" "d" 10 = c7Store
    ∧ (lookupA (AddDomainToBaseline c7Store "c" "n" "d" 10).baselines "c").map
        Baseline.lastUpdated = some 5
    ∧ (5 : Nat) ≠ 10 := by
  decide

/-- C7 witness: adding the new domain `e` to `c`'s baseline appends it and
stamps `last_updated = 10`. -/
theorem baseline_add_spec_witness :
    lookupA (AddDomainToBaseline c7Store "c" "n" "e" 10).baselines "c" =
      some { c7Baseline with domains := c7Baseline.domains ++ ["e"], lastUpdated := 10 } :=
  (baseline_add_spec c7Store "c" "n" "e" 10).2.2.1 c7Baseline rfl (by decide)

/-! ### Claim C10 -/

/-- C10: `SaveAnomaly` on an anomaly whose `ID` and `Status` are unset, when
the computed id already exists in the store, wholly overwrites the stored
record and resets its status to `"pending"`, whatever the previously stored
status was. -/
theorem saveAnomaly_reverts_to_pending (s : Store) (a old : Anomaly)
    (hid : a.id = "") (hst : a.status = "")
    (_hold : lookupA s.anomalies (anomalyIdFor a) = some old) :
    lookupA (SaveAnomaly s a).anomalies (anomalyIdFor a) =
      some { a with id := anomalyIdFor a, status := "pending" } := by
  simp [SaveAnomaly, hid, hst, lookupA_putA_self]

/-- C10 witness: re-saving the S1 anomaly over its stored `approved` copy
flips the stored status back to `pending`. -/
theorem saveAnomaly_reverts_to_pending_witness :
    lookupA (SaveAnomaly c10Store c10Anom).anomalies (anomalyIdFor c10Anom) =
      some { c10Anom with id := anomalyIdFor c10Anom, status := "pending" } :=
  saveAnomaly_reverts_to_pending c10Store c10Anom
    ({ c10Anom with id := anomalyIdFor c10Anom, status := "approved" }) rfl rfl (by decide)

/-! ### Claim C6 -/

/-- C6: for the block action, an absent id yields 404 with no state change;
a present anomaly with a failing upstream block-rule installation yields 500
with the store unchanged (the status stays as it was, e.g. `pending`); a
present anomaly with a successful installation yields 200 with exactly the
status set to `blocked`. -/
theorem block_action_spec (s : Store) (id : String) (a : Anomaly) (upstreamOk : Bool)
    (now : Nat) :
    (GetAnomalyByID s id = none → handleAnomalyAction s id "block" upstreamOk now = (404, s))
    ∧ (GetAnomalyByID s id = some a → upstreamOk = false →
        handleAnomalyAction s id "block" upstreamOk now = (500, s))
    ∧ (GetAnomalyByID s id = some a → upstreamOk = true → a.id = id →
        handleAnomalyAction s id "block" upstreamOk now =
          (200, { s with anomalies := putA s.anomalies id ({ a with status := "blocked" }) })) := by
  refine ⟨?_, ?_, ?_⟩
  · intro h
    simp [handleAnomalyAction, h]
  · intro h hup
    subst hup
    simp [handleAnomalyAction, h, blockAnomaly]
  · intro h hup hid
    subst hup
    have h' : lookupA s.anomalies id = some a := h
    simp [handleAnomalyAction, h, blockAnomaly, UpdateAnomalyStatus, hid, h']

/-- C6 witness: blocking the stored pending S1 anomaly with the upstream
down returns 500 and leaves the store (hence the `pending` status) unchanged. -/
theorem block_action_spec_witness :
    handleAnomalyAction c6Store c6Anom.id "block" false 0 = (500, c6Store) :=
  (block_action_spec c6Store c6Anom.id c6Anom false 0).2.1 (by decide) rfl

/-! ### Claim C8 -/

/-- C8 counterexample: for an entry whose `question.name` is `"Example.COM."`,
the derived record's domain is the verbatim `"Example.COM."` — not the
lower-cased, dot-stripped `"example.com"` the claim asserts. -/
theorem convert_no_normalization :
    (convertToQuery c8Entry).map DNSQuery.domain = some "Example.COM."
    ∧ "Example.COM." ≠ "example.com" := by
  decide

/-- C8 (amended): for every entry whose timestamp parses, the derived record's
domain equals `question.name || original_question.name || question.unicode_name`
**verbatim** (no lower-casing, no trailing-dot stripping), `client_id` equals
`client_id || client`, and `client_display_name` equals `client || client_id`. -/
theorem convert_field_mapping (e : QueryLogEntry) (ts : Nat) (h : e.time = some ts) :
    ∃ q, convertToQuery e = some q ∧ q.domain = specDomain e ∧ q.clientID = specClientID e
      ∧ q.clientName = specClientName e ∧ q.timestamp = ts := by
  refine ⟨_, by rw [convertToQuery, h], ?_, ?_, ?_, rfl⟩
  · simp only [specDomain]
    by_cases h1 : e.question.name = ""
    · by_cases h2 : e.originalQuestion.name = ""
      · by_cases h3 : e.question.unicodeName = ""
        · simp [h1, h2, h3]
        · simp [h1, h2, h3]
      · simp [h1, h2]
    · simp [h1]
  · simp only [specClientID]
    by_cases h1 : e.clientID = "" <;> simp [h1]
  · simp only [specClientName]
    by_cases h1 : e.client = "" <;> simp [h1]

/-- C8 witness: the mapping theorem applied to the concrete entry. -/
theorem convert_field_mapping_witness :
    ∃ q, convertToQuery c8Entry = some q ∧ q.domain = specDomain c8Entry
      ∧ q.clientID = specClientID c8Entry ∧ q.clientName = specClientName c8Entry
      ∧ q.timestamp = 1735689600 :=
  convert_field_mapping c8Entry 1735689600 rfl

/-! ### Claim C9 -/

/-- C9 counterexample: with an empty cache, a first lookup whose external
WHOIS call fails is **not** cached, so a second lookup of the same domain
100 seconds later (well within 24h) performs external network I/O again,
refuting "the second call performs no external network I/O". -/
theorem whois_second_lookup_after_failure :
    (200 : Nat) - 100 ≤ WhoisCacheTTL
    ∧ (Lookup ((Lookup w0 "x.com" 100 .lookupFailed).2.1) "x.com" 200 .lookupFailed).2.2 = true
    ∧ (Lookup ((Lookup w0 "x.com" 100 .lookupFailed).2.1) "x.com" 200
        .lookupFailed).2.1.lookupCount = 2 := by
  decide

/-- C9 (amended): on lookup or parse failure `Lookup` still returns the
minimal record (`looked_up_at = now`, empty fields) rather than an error; and
when a call performed a **successful** external lookup, a second call for the
same domain within the 24h TTL is served from the cache and performs no
external network I/O. -/
theorem whois_freshness_and_failure (st : WhoisState) (d : String) (n1 n2 : Nat)
    (reg ctry cd ud ed : String) (ns : List String) (o2 : WhoisOutcome)
    (hmiss : getFromCache st (normalizeDomain d) n1 = none)
    (hfresh : n2 - n1 ≤ WhoisCacheTTL) :
    (Lookup st d n1 .lookupFailed).1 = minimalWhois (normalizeDomain d) n1
    ∧ (Lookup st d n1 .parseFailed).1 = minimalWhois (normalizeDomain d) n1
    ∧ (Lookup ((Lookup st d n1 (.parsed reg ctry cd ud ed ns)).2.1) d n2 o2).2.2 = false := by
  refine ⟨?_, ?_, ?_⟩
  · simp [Lookup, hmiss]
  · simp [Lookup, hmiss]
  · have h1 : getFromCache ((Lookup st d n1 (.parsed reg ctry cd ud ed ns)).2.1)
        (normalizeDomain d) n2 =
        some ((Lookup st d n1 (.parsed reg ctry cd ud ed ns)).1) := by
      simp only [Lookup, hmiss]
      simp only [getFromCache, lookupA_putA_self]
      rw [if_neg (by simp only [WhoisCacheTTL] at hfresh ⊢; omega)]
    generalize Lookup st d n1 (.parsed reg ctry cd ud ed ns) = r at h1 ⊢
    simp [Lookup, h1]

/-- C9 witness: a successful lookup followed by a same-domain lookup 100s
later performs no network I/O the second time. -/
theorem whois_freshness_witness :
    (Lookup w0 "x.com" 100 .lookupFailed).1 = minimalWhois (normalizeDomain "x.com") 100
    ∧ (Lookup w0 "x.com" 100 .parseFailed).1 = minimalWhois (normalizeDomain "x.com") 100
    ∧ (Lookup ((Lookup w0 "x.com" 100 (.parsed "X" "US" "" "" "" [])).2.1) "x.com" 200
        .lookupFailed).2.2 = false :=
  whois_freshness_and_failure w0 "x.com" 100 200 "X" "US" "" "" "" [] .lookupFailed
    (by decide) (by decide)

/-! ### Claim C5 -/

/-- C5: a batch that fails with `ErrRateLimited` (which `AnalyzeBatch` indeed
returns when the provider throttles a non-empty batch) bumps the throttled
counter by exactly one, re-enqueues every element of the batch with the fixed
30-second delay (hence within 60 seconds), leaves the store untouched (no
analysis or anomaly persisted), and leaves the success counter unchanged. -/
theorem throttled_batch_requeues_all (stats : AnalyzerStats) (s : Store)
    (qs : List DNSQuery) (nows : Nat → Nat) :
    (qs.length ≠ 0 → AnalyzeBatch qs (.netError .rateLimited) nows = .error .rateLimited)
    ∧ (processBatchWithAPI stats s qs (.error .rateLimited)).1.rateLimitedCount =
        stats.rateLimitedCount + 1
    ∧ (processBatchWithAPI stats s qs (.error .rateLimited)).2.2 =
        qs.map (fun q => { delaySeconds := 30, query := q })
    ∧ ((processBatchWithAPI stats s qs (.error .rateLimited)).2.2.map Requeue.query = qs)
    ∧ (∀ r ∈ (processBatchWithAPI stats s qs (.error .rateLimited)).2.2,
        r.delaySeconds = 30 ∧ r.delaySeconds < 60)
    ∧ (processBatchWithAPI stats s qs (.error .rateLimited)).2.1 = s
    ∧ (processBatchWithAPI stats s qs (.error .rateLimited)).1.successfulAnalyses =
        stats.successfulAnalyses := by
  refine ⟨?_, ?_, ?_, ?_, ?_, ?_, ?_⟩
  · intro h
    simp [AnalyzeBatch, h]
  · simp [processBatchWithAPI]
  · simp [processBatchWithAPI]
  · simp [processBatchWithAPI, List.map_map, Function.comp_def]
  · intro r hr
    simp [processBatchWithAPI] at hr
    obtain ⟨q, _, rfl⟩ := hr
    refine ⟨rfl, ?_⟩
    show (30 : Nat) < 60
    decide
  · simp [processBatchWithAPI]
  · simp [processBatchWithAPI]

/-- C5 witness: the throttled S1 batch of size 2 requeues both elements with
a 30s delay and leaves the store empty. -/
theorem throttled_batch_requeues_all_witness :
    ([qS1, qS1].length ≠ 0 →
      AnalyzeBatch [qS1, qS1] (.netError .rateLimited) (fun _ => 0) = .error .rateLimited)
    ∧ (processBatchWithAPI zeroStats emptyStore [qS1, qS1]
        (.error .rateLimited)).1.rateLimitedCount = zeroStats.rateLimitedCount + 1
    ∧ (processBatchWithAPI zeroStats emptyStore [qS1, qS1] (.error .rateLimited)).2.2 =
        [qS1, qS1].map (fun q => { delaySeconds := 30, query := q })
    ∧ ((processBatchWithAPI zeroStats emptyStore [qS1, qS1]
        (.error .rateLimited)).2.2.map Requeue.query = [qS1, qS1])
    ∧ (∀ r ∈ (processBatchWithAPI zeroStats emptyStore [qS1, qS1]
        (.error .rateLimited)).2.2, r.delaySeconds = 30 ∧ r.delaySeconds < 60)
    ∧ (processBatchWithAPI zeroStats emptyStore [qS1, qS1] (.error .rateLimited)).2.1 =
        emptyStore
    ∧ (processBatchWithAPI zeroStats emptyStore [qS1, qS1]
        (.error .rateLimited)).1.successfulAnalyses = zeroStats.successfulAnalyses :=
  throttled_batch_requeues_all zeroStats emptyStore [qS1, qS1] (fun _ => 0)

/-! ### Lemmas for the dispatcher save loop -/

theorem anomalies_saveAnalysis (s : Store) (a : Analysis) :
    (SaveAnalysis s a).anomalies = s.anomalies := rfl

theorem analyses_saveAnalysisResult (s : Store) (a : Analysis) :
    (saveAnalysisResult s a).analyses = s.analyses ++ [a] := by
  simp only [saveAnalysisResult]
  by_cases h : a.classification = "Suspicious" ∨ a.classification = "Malicious"
  · rw [if_pos h]
    rfl
  · rw [if_neg h]
    rfl

theorem mem_anomalies_saveAnalysisResult (s : Store) (a : Analysis) (kv : String × Anomaly)
    (h : kv ∈ (saveAnalysisResult s a).anomalies) :
    kv ∈ s.anomalies ∨
      ((kv.2.classification = "Suspicious" ∨ kv.2.classification = "Malicious")
        ∧ kv.2.detectedAt = a.analyzedAt) := by
  simp only [saveAnalysisResult] at h
  by_cases hc : a.classification = "Suspicious" ∨ a.classification = "Malicious"
  · rw [if_pos hc] at h
    simp only [SaveAnomaly, SaveAnalysis] at h
    rcases mem_putA _ _ _ _ h with h' | h'
    · exact Or.inl h'
    · subst h'
      refine Or.inr ⟨?_, rfl⟩
    -- the saved record's classification is the analysis's classification
      simpa using hc
  · rw [if_neg hc] at h
    exact Or.inl h

theorem anomalies_saveAnalysisResult_safe (s : Store) (a : Analysis)
    (h : a.classification = "Safe") :
    (saveAnalysisResult s a).anomalies = s.anomalies := by
  simp [saveAnalysisResult, SaveAnalysis, h]

theorem saveLoop_analyses (s : Store) (l : List (Option Analysis)) :
    (saveLoop s l).1.analyses = s.analyses ++ l.filterMap id := by
  induction l generalizing s with
  | nil => simp [saveLoop]
  | cons hd t ih =>
    cases hd with
    | none => simpa [saveLoop] using ih s
    | some a =>
      simp only [saveLoop, List.filterMap_cons_some, id]
      rw [ih, analyses_saveAnalysisResult]
      simp

theorem mem_anomalies_saveLoop (s : Store) (l : List (Option Analysis)) (kv : String × Anomaly)
    (h : kv ∈ (saveLoop s l).1.anomalies) :
    kv ∈ s.anomalies ∨ ∃ a ∈ l.filterMap id,
      ((kv.2.classification = "Suspicious" ∨ kv.2.classification = "Malicious")
        ∧ kv.2.detectedAt = a.analyzedAt) := by
  induction l generalizing s with
  | nil => exact Or.inl h
  | cons hd t ih =>
    cases hd with
    | none =>
      rcases ih s h with h' | ⟨a, ha, hp⟩
      · exact Or.inl h'
      · exact Or.inr ⟨a, by simpa using ha, hp⟩
    | some a =>
      rcases ih (saveAnalysisResult s a) h with h' | ⟨a', ha', hp⟩
      · rcases mem_anomalies_saveAnalysisResult s a kv h' with h'' | h''
        · exact Or.inl h''
        · exact Or.inr ⟨a, by simp, h''⟩
      · exact Or.inr ⟨a', by simpa using Or.inr ha', hp⟩

theorem anomalies_saveLoop_safe (s : Store) (l : List (Option Analysis))
    (h : ∀ a ∈ l.filterMap id, a.classification = "Safe") :
    (saveLoop s l).1.anomalies = s.anomalies := by
  induction l generalizing s with
  | nil => rfl
  | cons hd t ih =>
    cases hd with
    | none =>
      exact ih s (fun a ha => h a (by simpa using ha))
    | some a =>
      have hsafe : a.classification = "Safe" := h a (by simp)
      have ht : ∀ a' ∈ t.filterMap id, a'.classification = "Safe" :=
        fun a' ha' => h a' (by simpa using Or.inr ha')
      rw [show (saveLoop s (some a :: t)).1 = (saveLoop (saveAnalysisResult s a) t).1 from rfl,
        ih (saveAnalysisResult s a) ht, anomalies_saveAnalysisResult_safe s a hsafe]

/-! ### Claim C2 -/

/-- C2: after the dispatcher persists a provider result whose analyses all
carry a non-zero analysis time, every anomaly in the store was either already
there or has classification Suspicious/Malicious and a non-null
`detected_at`; on a successful result every (non-nil) analysis — Safe ones
included — is appended to the analyses log; and if every verdict is Safe,
no anomaly is persisted at all. -/
theorem persisted_anomalies_nonsafe (stats : AnalyzerStats) (s : Store) (qs : List DNSQuery)
    (res : Except LLMError (List (Option Analysis)))
    (hdet : ∀ a ∈ okList res, a.analyzedAt ≠ 0) :
    (∀ kv ∈ (processBatchWithAPI stats s qs res).2.1.anomalies, kv ∈ s.anomalies ∨
      ((kv.2.classification = "Suspicious" ∨ kv.2.classification = "Malicious")
        ∧ kv.2.detectedAt ≠ 0))
    ∧ (isOkE res = true →
        (processBatchWithAPI stats s qs res).2.1.analyses = s.analyses ++ okList res)
    ∧ (isOkE res = true → (∀ a ∈ okList res, a.classification = "Safe") →
        (processBatchWithAPI stats s qs res).2.1.anomalies = s.anomalies) := by
  cases res with
  | error e =>
    refine ⟨?_, by simp [isOkE], by simp [isOkE]⟩
    intro kv hkv
    by_cases he : e = .rateLimited
    · subst he
      exact Or.inl (by simpa [processBatchWithAPI] using hkv)
    · left
      simpa [processBatchWithAPI, he] using hkv
  | ok l =>
    refine ⟨?_, fun _ => by simpa [processBatchWithAPI, okList] using saveLoop_analyses s l, ?_⟩
    · intro kv hkv
      simp only [processBatchWithAPI] at hkv
      rcases mem_anomalies_saveLoop s l kv hkv with h' | ⟨a, ha, hcls, hdt⟩
      · exact Or.inl h'
      · refine Or.inr ⟨hcls, ?_⟩
        rw [hdt]
        exact hdet a (by simpa [okList] using ha)
    · intro _ hsafe
      simpa [processBatchWithAPI] using
        anomalies_saveLoop_safe s l (fun a ha => hsafe a (by simpa [okList] using ha))

/-- C2 witness: persisting one Safe analysis (S2) appends it to the analyses
log and leaves the anomalies partition empty. -/
theorem persisted_anomalies_nonsafe_witness :
    (∀ kv ∈ (processBatchWithAPI zeroStats emptyStore [qS1] c2SafeRes).2.1.anomalies,
      kv ∈ emptyStore.anomalies ∨
        ((kv.2.classification = "Suspicious" ∨ kv.2.classification = "Malicious")
          ∧ kv.2.detectedAt ≠ 0))
    ∧ (isOkE c2SafeRes = true →
        (processBatchWithAPI zeroStats emptyStore [qS1] c2SafeRes).2.1.analyses =
          emptyStore.analyses ++ okList c2SafeRes)
    ∧ (isOkE c2SafeRes = true → (∀ a ∈ okList c2SafeRes, a.classification = "Safe") →
        (processBatchWithAPI zeroStats emptyStore [qS1] c2SafeRes).2.1.anomalies =
          emptyStore.anomalies) :=
  persisted_anomalies_nonsafe zeroStats emptyStore [qS1] c2SafeRes (by decide)

/-! ### Lemmas for the batch conversion loop -/

theorem buildAnalyses_ok_spec (qs : List DNSQuery) (rs : List BatchAnalysisResponse)
    (nows : Nat → Nat) (k : Nat) (as : List Analysis)
    (h : buildAnalyses qs rs nows k = .ok as) :
    as.length = qs.length ∧ rs.length = qs.length ∧
    ∀ (i : Nat) (hi : i < as.length) (hq : i < qs.length) (hr : i < rs.length),
      as.get ⟨i, hi⟩ = mkAnalysis (qs.get ⟨i, hq⟩) (rs.get ⟨i, hr⟩) (nows (k + i))
      ∧ (rs.get ⟨i, hr⟩).validate = true
      ∧ (rs.get ⟨i, hr⟩).domain = (qs.get ⟨i, hq⟩).domain := by
  induction qs generalizing rs k as with
  | nil =>
    cases rs with
    | nil =>
      simp only [buildAnalyses] at h
      obtain rfl : ([] : List Analysis) = as := Except.ok.inj h
      refine ⟨rfl, rfl, ?_⟩
      intro i hi
      simp at hi
    | cons r rt =>
      simp only [buildAnalyses] at h
      exact Except.noConfusion h
  | cons q qt ih =>
    cases rs with
    | nil =>
      simp only [buildAnalyses] at h
      exact Except.noConfusion h
    | cons r rt =>
      simp only [buildAnalyses] at h
      by_cases hv : r.validate = false
      · rw [if_pos hv] at h
        exact Except.noConfusion h
      · rw [if_neg hv] at h
        by_cases hd : r.domain ≠ q.domain
        · rw [if_pos hd] at h
          exact Except.noConfusion h
        · rw [if_neg hd] at h
          cases hrec : buildAnalyses qt rt nows (k + 1) with
          | error e =>
            rw [hrec] at h
            exact Except.noConfusion h
          | ok rest =>
            rw [hrec] at h
            obtain rfl : mkAnalysis q r (nows k) :: rest = as := Except.ok.inj h
            obtain ⟨hlen, hlen2, hspec⟩ := ih rt (k + 1) rest hrec
            refine ⟨by simp [hlen], by simp [hlen2], ?_⟩
            intro i hi hq' hr'
            cases i with
            | zero =>
              refine ⟨by simp, ?_, ?_⟩
              · cases hb : r.validate with
                | false => exact absurd hb hv
                | true => simpa using hb
              · simpa using not_not.mp hd
            | succ j =>
              have hi' : j < rest.length := by simpa using hi
              have hq'' : j < qt.length := by simpa using hq'
              have hr'' : j < rt.length := by simpa using hr'
              have hs := hspec j hi' hq'' hr''
              have hk : k + (j + 1) = (k + 1) + j := by omega
              refine ⟨?_, by simpa using hs.2.1, by simpa using hs.2.2⟩
              rw [hk]
              simpa using hs.1

theorem validVerdict_mkAnalysis (q : DNSQuery) (r : BatchAnalysisResponse) (now : Nat)
    (h : r.validate = true) : validVerdict (mkAnalysis q r now) = true := by
  simp only [BatchAnalysisResponse.validate, Bool.and_eq_true, Bool.or_eq_true,
    decide_eq_true_eq] at h
  simp only [validVerdict, mkAnalysis, Bool.and_eq_true, Bool.or_eq_true, decide_eq_true_eq]
  tauto

/-! ### Claim C4 -/

/-- C4: an accepted batch result has exactly `|B|` verdicts, the `i`-th
verdict's domain equals `B[i].domain` and every verdict satisfies the verdict
invariants; a wrong-sized response is rejected whole, and any invalid or
misaligned position rejects the whole batch with an error (no verdicts
accepted). -/
theorem analyzeBatch_all_or_nothing (qs : List DNSQuery) (rs : List BatchAnalysisResponse)
    (nows : Nat → Nat) :
    (∀ as, AnalyzeBatch qs (.response rs) nows = .ok as →
      as.length = qs.length ∧
      ∀ (i : Nat) (hi : i < as.length) (hq : i < qs.length),
        (as.get ⟨i, hi⟩).domain = (qs.get ⟨i, hq⟩).domain ∧
        validVerdict (as.get ⟨i, hi⟩) = true)
    ∧ (rs.length ≠ qs.length →
        ∃ e, AnalyzeBatch qs (.response rs) nows = .error e)
    ∧ (∀ (i : Nat) (hr : i < rs.length) (hq : i < qs.length),
        ((rs.get ⟨i, hr⟩).validate = false ∨
          (rs.get ⟨i, hr⟩).domain ≠ (qs.get ⟨i, hq⟩).domain) →
        ∃ e, AnalyzeBatch qs (.response rs) nows = .error e) := by
  refine ⟨?_, ?_, ?_⟩
  · intro as hok
    simp only [AnalyzeBatch] at hok
    by_cases h0 : qs.length = 0
    · rw [if_pos h0] at hok
      exact Except.noConfusion hok
    · rw [if_neg h0] at hok
      by_cases hlen : rs.length ≠ qs.length
      · rw [if_pos hlen] at hok
        exact Except.noConfusion hok
      · rw [if_neg hlen] at hok
        obtain ⟨hl, _, hspec⟩ := buildAnalyses_ok_spec qs rs nows 0 as hok
        refine ⟨hl, ?_⟩
        intro i hi hq
        have hr : i < rs.length := by omega
        have hs := hspec i hi hq hr
        refine ⟨?_, ?_⟩
        · rw [hs.1]
          rfl
        · rw [hs.1]
          exact validVerdict_mkAnalysis _ _ _ hs.2.1
  · intro hne
    by_cases h0 : qs.length = 0
    · exact ⟨.other "no queries to analyze", by simp [AnalyzeBatch, h0]⟩
    · exact ⟨.other "batch response count mismatch", by simp [AnalyzeBatch, h0, hne]⟩
  · intro i hr hq hviol
    cases hab : AnalyzeBatch qs (.response rs) nows with
    | error e => exact ⟨e, rfl⟩
    | ok as =>
      exfalso
      simp only [AnalyzeBatch] at hab
      by_cases h0 : qs.length = 0
      · rw [if_pos h0] at hab
        exact Except.noConfusion hab
      · rw [if_neg h0] at hab
        by_cases hlen : rs.length ≠ qs.length
        · rw [if_pos hlen] at hab
          exact Except.noConfusion hab
        · rw [if_neg hlen] at hab
          obtain ⟨hl, _, hspec⟩ := buildAnalyses_ok_spec qs rs nows 0 as hab
          have hi : i < as.length := by omega
          have hs := hspec i hi hq hr
          rcases hviol with hv | hv
          · exact Bool.noConfusion (hv.symm.trans hs.2.1)
          · exact hv hs.2.2

/-- C4 witness: the accepted singleton S1 batch yields one aligned, valid
verdict. -/
theorem analyzeBatch_all_or_nothing_witness :
    [mkAnalysis qS1 rMal 5].length = [qS1].length ∧
    ∀ (i : Nat) (hi : i < [mkAnalysis qS1 rMal 5].length) (hq : i < [qS1].length),
      (([mkAnalysis qS1 rMal 5].get ⟨i, hi⟩).domain = ([qS1].get ⟨i, hq⟩).domain) ∧
      validVerdict ([mkAnalysis qS1 rMal 5].get ⟨i, hi⟩) = true :=
  (analyzeBatch_all_or_nothing [qS1] [rMal] (fun _ => 5)).1 [mkAnalysis qS1 rMal 5] rfl

/-! ### Claim C3 -/

theorem nodup_anomalies_saveAnalysisResult (s : Store) (a : Analysis)
    (h : (keysOf s.anomalies).Nodup) :
    (keysOf (saveAnalysisResult s a).anomalies).Nodup := by
  simp only [saveAnalysisResult]
  by_cases hc : a.classification = "Suspicious" ∨ a.classification = "Malicious"
  · rw [if_pos hc]
    exact nodup_keysOf_putA _ _ _ h
  · rw [if_neg hc]
    exact h

theorem nodup_anomalies_saveLoop (s : Store) (l : List (Option Analysis))
    (h : (keysOf s.anomalies).Nodup) :
    (keysOf (saveLoop s l).1.anomalies).Nodup := by
  induction l generalizing s with
  | nil => exact h
  | cons hd t ih =>
    cases hd with
    | none => exact ih s h
    | some a => exact ih (saveAnalysisResult s a) (nodup_anomalies_saveAnalysisResult s a h)

/-- C3 counterexample: running the S1 batch (submitted twice) through the
batch classifier and the dispatcher with the analysis-time clock at
2025-01-02T00:00:00Z, no anomaly is stored under the claimed id built
from the record's timestamp (`...2025-01-01T00:00:00Z`); the single stored
anomaly is keyed by the analysis time instead. -/
theorem anomaly_id_uses_analysis_time :
    lookupA c3Run.2.1.anomalies "iot-plug|telemetry.example.org|2025-01-01T00:00:00Z" = none
    ∧ (lookupA c3Run.2.1.anomalies
        "iot-plug|telemetry.example.org|2025-01-02T00:00:00Z").isSome = true
    ∧ c3Run.2.1.anomalies.length = 1
    ∧ c3Run.2.1.analyses.length = 2 := by
  decide

/-- C3 (amended): two submissions for the same (client, domain) classified in
one accepted batch each produce their own Analysis, and — provided their
per-item analysis-time clock readings format to the same RFC3339 second —
the two anomaly saves compute the same id
`client_id|domain|analyzed_at_rfc3339` (the analysis time, not the record's
timestamp), and the store's anomaly keys stay duplicate-free, so a single
Anomaly record exists for that pair. -/
theorem batch_same_pair_same_anomaly_id (qs : List DNSQuery)
    (rs : List BatchAnalysisResponse) (nows : Nat → Nat) (as : List Analysis)
    (stats : AnalyzerStats) (s : Store) (i j : Nat)
    (hok : AnalyzeBatch qs (.response rs) nows = .ok as)
    (hi : i < qs.length) (hj : j < qs.length)
    (hc : (qs.get ⟨i, hi⟩).clientID = (qs.get ⟨j, hj⟩).clientID)
    (hd : (qs.get ⟨i, hi⟩).domain = (qs.get ⟨j, hj⟩).domain)
    (ht : fmtRFC3339 (nows i) = fmtRFC3339 (nows j)) :
    as.length = qs.length
    ∧ (∀ (hi' : i < as.length) (hj' : j < as.length),
        anomalyIdOfAnalysis (as.get ⟨i, hi'⟩) = anomalyIdOfAnalysis (as.get ⟨j, hj'⟩))
    ∧ ((keysOf s.anomalies).Nodup →
        (keysOf (processBatchWithAPI stats s qs (.ok (as.map some))).2.1.anomalies).Nodup) := by
  simp only [AnalyzeBatch] at hok
  by_cases h0 : qs.length = 0
  · rw [if_pos h0] at hok
    exact Except.noConfusion hok
  · rw [if_neg h0] at hok
    by_cases hlen : rs.length ≠ qs.length
    · rw [if_pos hlen] at hok
      exact Except.noConfusion hok
    · rw [if_neg hlen] at hok
      obtain ⟨hl, hl2, hspec⟩ := buildAnalyses_ok_spec qs rs nows 0 as hok
      refine ⟨hl, ?_, ?_⟩
      · intro hi' hj'
        have hri : i < rs.length := by omega
        have hrj : j < rs.length := by omega
        have hsi := (hspec i hi' hi hri).1
        have hsj := (hspec j hj' hj hrj).1
        rw [hsi, hsj]
        simp only [anomalyIdOfAnalysis, mkAnalysis, Nat.zero_add]
        rw [hc, hd, ht]
      · intro hnd
        simp only [processBatchWithAPI]
        exact nodup_anomalies_saveLoop s (as.map some) hnd

/-- C3 witness: the amended theorem applied to the duplicated S1 batch with a
constant analysis clock — both positions get the same id and the empty
store's anomaly keys stay duplicate-free. -/
theorem batch_same_pair_same_anomaly_id_witness :
    c3Analyses.length = [qS1, qS1].length
    ∧ (∀ (hi' : 0 < c3Analyses.length) (hj' : 1 < c3Analyses.length),
        anomalyIdOfAnalysis (c3Analyses.get ⟨0, hi'⟩) =
          anomalyIdOfAnalysis (c3Analyses.get ⟨1, hj'⟩))
    ∧ ((keysOf emptyStore.anomalies).Nodup →
        (keysOf (processBatchWithAPI zeroStats emptyStore [qS1, qS1]
          (.ok (c3Analyses.map some))).2.1.anomalies).Nodup) :=
  batch_same_pair_same_anomaly_id [qS1, qS1] [rMal, rMal] (fun _ => 1735776000) c3Analyses
    zeroStats emptyStore 0 1 rfl (by decide) (by decide) rfl rfl rfl

/-! ### Claim C1 -/

theorem processQuery_snd (s : Store) (q : DNSQuery) (now : Nat) :
    (ProcessQuery s q now).2 =
      if HasSeenQuery s q.queryID then s else MarkQueryProcessed s q.queryID now := by
  simp only [ProcessQuery]
  by_cases hs : HasSeenQuery s q.queryID = true
  · simp [hs]
  · simp only [hs, Bool.false_eq_true, if_false]
    by_cases hb : HasDomainInBaseline (MarkQueryProcessed s q.queryID now) q.clientID
        q.domain now = true
    · simp [hs, hb]
    · simp [hs, hb]

theorem hasDomain_processQuery (s : Store) (q : DNSQuery) (now : Nat) (c d : String) :
    HasDomainInBaseline (ProcessQuery s q now).2 c d now = HasDomainInBaseline s c d now := by
  rw [processQuery_snd]
  by_cases hs : HasSeenQuery s q.queryID = true
  · rw [if_pos hs]
  · rw [if_neg hs, hasDomain_markQueryProcessed]

theorem pollStep_preserves (s : Store) (q : DNSQuery) (now : Nat) (c d : String)
    (h : HasDomainInBaseline s c d now = true) :
    HasDomainInBaseline (pollStep s q now).1 c d now = true := by
  simp only [pollStep]
  by_cases he : q.domain = ""
  · rw [if_pos he]
    exact h
  · rw [if_neg he]
    by_cases hr : (ProcessQuery s q now).1 = true
    · simp only [hr, if_true]
      exact hasDomain_addDomainToBaseline_mono _ _ _ _ _ _ _
        (by rw [hasDomain_processQuery]; exact h)
    · simp only [hr, Bool.false_eq_true, if_false]
      rw [hasDomain_processQuery]
      exact h

theorem pollStep_no_submit (s : Store) (q : DNSQuery) (now : Nat)
    (h : HasDomainInBaseline s q.clientID q.domain now = true) :
    (pollStep s q now).2 = none := by
  simp only [pollStep]
  by_cases he : q.domain = ""
  · simp [he]
  · rw [if_neg he]
    have hflag : (ProcessQuery s q now).1 = false := by
      simp only [ProcessQuery]
      by_cases hs : HasSeenQuery s q.queryID = true
      · simp [hs]
      · simp only [hs, Bool.false_eq_true, if_false]
        have hb : HasDomainInBaseline (MarkQueryProcessed s q.queryID now) q.clientID
            q.domain now = true := by
          rw [hasDomain_markQueryProcessed]
          exact h
        simp [hb]
    simp [hflag]

theorem pollStep_submit_spec (s : Store) (q : DNSQuery) (now : Nat) (q' : DNSQuery)
    (h : (pollStep s q now).2 = some q') :
    q' = q ∧ HasDomainInBaseline (pollStep s q now).1 q.clientID q.domain now = true := by
  simp only [pollStep] at h ⊢
  by_cases he : q.domain = ""
  · rw [if_pos he] at h
    exact Option.noConfusion h
  · rw [if_neg he] at h ⊢
    by_cases hr : (ProcessQuery s q now).1 = true
    · simp only [hr, if_true] at h ⊢
      exact ⟨(Option.some_inj.mp h).symm, hasDomain_addDomainToBaseline_self _ _ _ _ _⟩
    · simp only [hr, Bool.false_eq_true, if_false] at h
      exact Option.noConfusion h

theorem pairCount_append (l1 l2 : List DNSQuery) (c d : String) :
    pairCount (l1 ++ l2) c d = pairCount l1 c d + pairCount l2 c d := by
  simp [pairCount, List.filter_append]

theorem pollQueries_no_pair_of_inBaseline (s : Store) (qs : List DNSQuery) (now : Nat)
    (c d : String) (h : HasDomainInBaseline s c d now = true) :
    pairCount (pollQueries s qs now).2 c d = 0 := by
  induction qs generalizing s with
  | nil => rfl
  | cons q t ih =>
    simp only [pollQueries]
    rw [pairCount_append, ih (pollStep s q now).1 (pollStep_preserves s q now c d h)]
    cases hstep : (pollStep s q now).2 with
    | none => simp [pairCount]
    | some q' =>
      obtain ⟨rfl, _⟩ := pollStep_submit_spec s q now q' hstep
      by_cases hp : q'.clientID = c ∧ q'.domain = d
      · exfalso
        have hnone := pollStep_no_submit s q' now (by rw [hp.1, hp.2]; exact h)
        rw [hnone] at hstep
        exact Option.noConfusion hstep
      · simp [pairCount, hp]

/-- C1: over any page of records processed sequentially from any store state,
the poller submits a given (client, domain) pair to the LLM dispatcher at
most once — the baseline is extended in the same step as the submission, so
no later record of the pair is flagged; and from a state whose (persisted)
baseline already holds the pair — e.g. after a restart — the pair is never
submitted at all. -/
theorem detector_pair_at_most_once (s : Store) (qs : List DNSQuery) (now : Nat)
    (c d : String) :
    pairCount (pollQueries s qs now).2 c d ≤ 1
    ∧ (HasDomainInBaseline s c d now = true →
        pairCount (pollQueries s qs now).2 c d = 0) := by
  refine ⟨?_, pollQueries_no_pair_of_inBaseline s qs now c d⟩
  induction qs generalizing s with
  | nil =>
    simp [pollQueries, pairCount]
  | cons q t ih =>
    simp only [pollQueries]
    rw [pairCount_append]
    cases hstep : (pollStep s q now).2 with
    | none =>
      simpa [pairCount] using ih (pollStep s q now).1
    | some q' =>
      obtain ⟨rfl, hin⟩ := pollStep_submit_spec s q now q' hstep
      by_cases hp : q'.clientID = c ∧ q'.domain = d
      · have h0 : pairCount (pollQueries (pollStep s q' now).1 t now).2 c d = 0 :=
          pollQueries_no_pair_of_inBaseline _ t now c d (by rw [← hp.1, ← hp.2]; exact hin)
        rw [h0]
        simp [pairCount, hp]
      · have := ih (pollStep s q' now).1
        simpa [pairCount, hp] using this

/-- C1 witness: with the pair (`c`, `d`) already in the persisted baseline,
a page holding the same record twice produces zero submissions of the pair. -/
theorem detector_pair_at_most_once_witness :
    pairCount (pollQueries c7Store [c1q, c1q] 7).2 "c" "d" = 0 :=
  (detector_pair_at_most_once c7Store [c1q, c1q] 7 "c" "d").2 (by decide)

end GuardianLog
